import Mathlib

/-!
Verification development for the ClawRag repository.

The repository ships the MCP-server configuration module (`mcp-server/src/config.ts`)
together with documentation of the hybrid retrieval core (circuit breaker, retry
policy, RRF fusion engine, query orchestrator).  The retrieval core itself is not
part of the shipped sources, so its components are modelled from the specification;
the configuration module is embedded directly from `config.ts`.
-/

namespace ClawRag

instance {ε α : Type} [DecidableEq ε] [DecidableEq α] : DecidableEq (Except ε α) := fun x y =>
  match x, y with
  | .ok a, .ok b => if h : a = b then .isTrue (by rw [h]) else .isFalse (by simp [h])
  | .ok _, .error _ => .isFalse (by simp)
  | .error _, .ok _ => .isFalse (by simp)
  | .error e, .error f => if h : e = f then .isTrue (by rw [h]) else .isFalse (by simp [h])

/-! ## Fusion engine (Reciprocal Rank Fusion) -/

/-- Modelled from the spec: the `FusedResult` record produced by the FusionEngine
(the FusionEngine implementation is not in the shipped sources).  Fields are the
spec's `chunk_id`, `collection_id`, `fused_score` and the tie-break keys
`vector_rank` / `lexical_rank`; `none` means the chunk was absent from that list. -/
structure FusedResult where
  chunk_id : String
  collection_id : String
  fused_score : ℚ
  vector_rank : Option ℕ
  lexical_rank : Option ℕ
deriving DecidableEq, Repr

/-- Ranks ordered with absence (`none`) treated as worse than any present rank. -/
def toWT : Option ℕ → WithTop ℕ
  | none => ⊤
  | some n => (n : WithTop ℕ)

/-- Sort key of a fused result: descending fused score (encoded as the negated
score ascending), then vector rank (absence worst), then lexical rank, then
chunk id, then collection id. -/
def fusedKey (r : FusedResult) : ℚ ×ₗ (WithTop ℕ ×ₗ (WithTop ℕ ×ₗ (String ×ₗ String))) :=
  toLex (-r.fused_score,
    toLex (toWT r.vector_rank,
      toLex (toWT r.lexical_rank,
        toLex (r.chunk_id, r.collection_id))))

/-- Modelled from the spec: the total order in which the FusionEngine emits results. -/
def fusedLE (a b : FusedResult) : Prop := fusedKey a ≤ fusedKey b

instance : DecidableRel fusedLE :=
  fun a b => inferInstanceAs (Decidable (fusedKey a ≤ fusedKey b))

theorem toWT_inj {a b : Option ℕ} (h : toWT a = toWT b) : a = b := by
  cases a <;> cases b <;> simp_all [toWT]

theorem fusedKey_inj {a b : FusedResult} (h : fusedKey a = fusedKey b) : a = b := by
  cases a; cases b
  simp only [fusedKey, toLex_inj, Prod.mk.injEq, neg_inj] at h
  obtain ⟨h1, h2, h3, h4, h5⟩ := h
  simp_all [toWT_inj h2, toWT_inj h3]

instance : IsTotal FusedResult fusedLE :=
  ⟨fun a b => le_total (fusedKey a) (fusedKey b)⟩

instance : IsTrans FusedResult fusedLE :=
  ⟨fun _ _ _ h1 h2 => le_trans h1 h2⟩

instance : IsAntisymm FusedResult fusedLE :=
  ⟨fun _ _ h1 h2 => fusedKey_inj (le_antisymm h1 h2)⟩

/-- Rank (1-based) of a chunk id in a ranked list, `none` when absent. -/
def rankOf (l : List String) (d : String) : Option ℕ :=
  (l.indexOf? d).map (· + 1)

/-- Modelled from the spec: a list's RRF contribution, `1 / (K + rank)` when the
chunk is present and `0` when absent. -/
def rrfContrib (K : ℚ) : Option ℕ → ℚ
  | none => 0
  | some r => 1 / (K + r)

/-- Modelled from the spec: `fused_score(d) = Σ_l 1/(K + rank_l(d))` over the two
lists (vector, lexical). -/
def fusedScore (K : ℚ) (v l : List String) (d : String) : ℚ :=
  rrfContrib K (rankOf v d) + rrfContrib K (rankOf l d)

/-- Candidate universe of a fusion call: chunks appearing in at least one list. -/
def candidates (v l : List String) : List String := (v ++ l).dedup

/-- Fused result built for one candidate chunk. -/
def mkFused (coll : String) (K : ℚ) (v l : List String) (d : String) : FusedResult :=
  ⟨d, coll, fusedScore K v l d, rankOf v d, rankOf l d⟩

/-- Modelled from the spec: the FusionEngine — score every candidate by RRF and
emit all candidates sorted by descending fused score with the deterministic
tie-break order `fusedLE`. -/
def fuse (coll : String) (K : ℚ) (v l : List String) : List FusedResult :=
  List.insertionSort fusedLE ((candidates v l).map (mkFused coll K v l))

/-- Modelled from the spec: the orchestrator's cross-collection merge — re-sort
all collected results globally by the same total order and truncate to `k`. -/
def globalMerge (k : ℕ) (rs : List FusedResult) : List FusedResult :=
  (List.insertionSort fusedLE rs).take k

/-! ## Circuit breaker -/

/-- Circuit breaker status: `closed` (normal), `opened` (fail fast, written
`open` in the spec), `halfOpen` (single trial call in flight). -/
inductive CBStatus where
  | closed
  | opened
  | halfOpen
deriving DecidableEq, Repr

/-- Modelled from the spec: circuit breaker configuration with the documented
defaults (`failure_threshold` 5, `cooldown_duration` 30 s, in milliseconds). -/
structure CBConfig where
  failure_threshold : ℕ := 5
  cooldown_duration : ℕ := 30000
deriving DecidableEq, Repr

/-- Modelled from the spec: the `CircuitBreakerState` record. -/
structure CBState where
  status : CBStatus
  consecutive_failures : ℕ
  opened_at : ℕ
deriving DecidableEq, Repr

/-- Outcome the underlying store call would produce, were it invoked. -/
inductive StoreOutcome where
  | success
  | failure
deriving DecidableEq, Repr

/-- Result of a guarded call: either the store was invoked and completed with
the given outcome, or the breaker rejected the call with `CircuitOpenError`. -/
inductive CallResult where
  | completed (o : StoreOutcome)
  | circuitOpenError
deriving DecidableEq, Repr

/-- One guarded call's effect: the surfaced result, whether the store was
actually invoked, and the successor breaker state. -/
structure CallStep where
  result : CallResult
  store_invoked : Bool
  state : CBState
deriving DecidableEq, Repr

/-- Modelled from the spec: one store call routed through the CircuitBreaker
(the CircuitBreaker implementation is not in the shipped sources).  While
`opened` and before the cooldown elapses the call is rejected with
`CircuitOpenError` and the store is not invoked; after the cooldown one trial
call is admitted (`half_open`), closing the breaker on success and re-opening
it (cooldown restarted) on failure; while a trial is in flight concurrent
callers are rejected; in `closed` state the call is invoked, a success resets
the consecutive-failure streak, and a failure that brings the streak to
`failure_threshold` opens the breaker. -/
def cbCall (cfg : CBConfig) (s : CBState) (t : ℕ) (store : StoreOutcome) : CallStep :=
  match s.status with
  | .opened =>
    if s.opened_at + cfg.cooldown_duration ≤ t then
      match store with
      | .success => ⟨.completed .success, true, ⟨.closed, 0, s.opened_at⟩⟩
      | .failure => ⟨.completed .failure, true, ⟨.opened, s.consecutive_failures, t⟩⟩
    else
      ⟨.circuitOpenError, false, s⟩
  | .halfOpen => ⟨.circuitOpenError, false, s⟩
  | .closed =>
    match store with
    | .success => ⟨.completed .success, true, ⟨.closed, 0, s.opened_at⟩⟩
    | .failure =>
      if cfg.failure_threshold ≤ s.consecutive_failures + 1 then
        ⟨.completed .failure, true, ⟨.opened, s.consecutive_failures + 1, t⟩⟩
      else
        ⟨.completed .failure, true, ⟨.closed, s.consecutive_failures + 1, s.opened_at⟩⟩

/-! ## Retry policy -/

/-- Modelled from the spec: retry configuration with the documented defaults
(`base_delay` 200 ms, `max_delay` 5 s, `max_attempts` 3). -/
structure RetryConfig where
  base_delay : ℚ := 200
  max_delay : ℚ := 5000
  max_attempts : ℕ := 3
deriving DecidableEq, Repr

/-- Modelled from the spec: the backoff cap before attempt `n` (1-indexed,
`n ≥ 2`): `min(base_delay * 2 ^ (n - 2), max_delay)`. -/
def retryDelay (cfg : RetryConfig) (n : ℕ) : ℚ :=
  min (cfg.base_delay * 2 ^ (n - 2)) cfg.max_delay

/-- Modelled from the spec: full jitter — the delay actually scheduled before
attempt `n` is a uniform draw over `[0, retryDelay cfg n]`, represented by the
jitter fraction `j ∈ [0, 1]` (per the spec's testable property that the second
attempt's scheduled delay lies in `[0, 200 ms]`). -/
def scheduledDelay (cfg : RetryConfig) (n : ℕ) (j : ℚ) : ℚ :=
  j * retryDelay cfg n

/-- Result of a bounded-retry run: either some attempt succeeded, or all
attempts were exhausted and the last underlying error is surfaced wrapped as
`RetryExhaustedError`. -/
inductive RetryOutcome (ε α : Type) where
  | success (a : α)
  | exhausted (last : ε)
deriving DecidableEq, Repr

/-- Runs the first attempt, then the remaining ones in order, stopping at the
first success; when every attempt fails the last error is surfaced. -/
def runRetry {ε α : Type} : Except ε α → List (Except ε α) → RetryOutcome ε α
  | .ok a, _ => .success a
  | .error e, [] => .exhausted e
  | .error _, f :: r => runRetry f r

/-- Modelled from the spec: RetryPolicy wrapping one logical operation — the
1-indexed attempts `1 .. max_attempts` are tried in order. -/
def retryPolicy {ε α : Type} (cfg : RetryConfig) (attempt : ℕ → Except ε α) :
    RetryOutcome ε α :=
  runRetry (attempt 1) ((List.range (cfg.max_attempts - 1)).map (fun i => attempt (i + 2)))

/-! ## Vector retriever -/

/-- Collection metadata read from the external registry. -/
structure Collection where
  name : String
  embedding_dimension : ℕ
  document_count : ℕ
deriving DecidableEq, Repr

/-- A single retriever's output entry (1-based rank). -/
structure RankedEntry where
  chunk_id : String
  rank : ℕ
  raw_score : ℚ
deriving DecidableEq, Repr

/-- Error kinds of the retrieval layer. -/
inductive RetrievalError where
  | validationError
  | invariantError
  | connectionError
  | timeoutError
  | circuitOpenErr
  | retryExhaustedError
deriving DecidableEq, Repr

/-- Checks that raw scores are monotonically descending along the list. -/
def monotonicDescending : List RankedEntry → Bool
  | [] => true
  | [_] => true
  | a :: b :: rest => decide (b.raw_score ≤ a.raw_score) && monotonicDescending (b :: rest)

/-- Modelled from the spec: VectorRetriever.search (the implementation is not in
the shipped sources).  A query embedding whose dimension differs from the
collection's declared `embedding_dimension` is a `ValidationError` (never a
silent truncation or padding); `k < 1` is a `ValidationError`; the store's
already-ranked response (`store`) is re-validated for monotonic descending
order (`InvariantError` otherwise) and truncated to `k`. -/
def vectorSearch (c : Collection) (query : List ℚ) (k : ℕ)
    (store : List RankedEntry) : Except RetrievalError (List RankedEntry) :=
  if query.length ≠ c.embedding_dimension then .error .validationError
  else if k < 1 then .error .validationError
  else if ¬ monotonicDescending store then .error .invariantError
  else .ok (store.take k)

/-! ## Query orchestrator -/

/-- Terminal states of a query request. -/
inductive TerminalState where
  | completed
  | partialFailure
  | failed
deriving DecidableEq, Repr

/-- Settled outcome of one per-collection task. -/
structure CollectionOutcome where
  name : String
  outcome : Except RetrievalError (List FusedResult)
deriving Repr

/-- Per-collection result lists of the collections that succeeded. -/
def successResults (outs : List CollectionOutcome) : List (List FusedResult) :=
  outs.filterMap (fun o => o.outcome.toOption)

/-- Modelled from the spec: the manifest of failed collections and their error
kinds. -/
def failedCollections (outs : List CollectionOutcome) : List (String × RetrievalError) :=
  outs.filterMap (fun o => match o.outcome with
    | .error e => some (o.name, e)
    | .ok _ => none)

/-- Modelled from the spec: the request's terminal state — `completed` when all
collections succeeded, `failed` when every collection failed, `partialFailure`
otherwise. -/
def terminalState (outs : List CollectionOutcome) : TerminalState :=
  if failedCollections outs = [] then .completed
  else if successResults outs = [] then .failed
  else .partialFailure

/-- Modelled from the spec: QueryOrchestrator — merge the successful
collections' results globally, truncate to `k`, and report the terminal state
together with the failure manifest. -/
def orchestrate (k : ℕ) (outs : List CollectionOutcome) :
    TerminalState × List FusedResult × List (String × RetrievalError) :=
  (terminalState outs, globalMerge k (successResults outs).flatten, failedCollections outs)

/-! ## MCP server configuration (embedded from `src/mcp-server/src/config.ts`) -/

/-- Log levels accepted by `z.enum(['DEBUG', 'INFO', 'WARN', 'ERROR'])`. -/
inductive LogLevel where
  | DEBUG
  | INFO
  | WARN
  | ERROR
deriving DecidableEq, Repr

/-- Parses a string against the `LOG_LEVEL` enum; `none` when outside it. -/
def parseLogLevel (s : String) : Option LogLevel :=
  if s = "DEBUG" then some .DEBUG
  else if s = "INFO" then some .INFO
  else if s = "WARN" then some .WARN
  else if s = "ERROR" then some .ERROR
  else none

/-- Splits a character list of the shape `scheme://rest` at the first colon,
requiring it to be followed by two slashes. -/
def splitScheme : List Char → Option (List Char × List Char)
  | [] => none
  | c :: cs =>
    if c = ':' then
      match cs with
      | '/' :: '/' :: rest => some ([], rest)
      | _ => none
    else
      match splitScheme cs with
      | some (sch, rest) => some (c :: sch, rest)
      | none => none

/-- Modelled from the spec: zod's `.url()` validator (the zod library itself is
not part of the shipped sources) — the string must look like `scheme://rest`
with a nonempty alphabetic scheme and a nonempty remainder. -/
def isURL (s : String) : Bool :=
  match splitScheme s.data with
  | some (sch, rest) => !sch.isEmpty && sch.all Char.isAlpha && !rest.isEmpty
  | none => false

/-- Decimal value of a digit list. -/
def digitsVal (cs : List Char) : ℕ :=
  cs.foldl (fun acc c => acc * 10 + (c.toNat - 48)) 0

/-- Modelled from the spec: JavaScript's `Number` coercion applied by the
`CLAWRAG_TIMEOUT` transform (the JS runtime is not part of the shipped
sources), on the inputs relevant here — the empty string coerces to `0`, an
all-digit string to its decimal value, anything else to `NaN` (`none`). -/
def jsNumber (s : String) : Option ℕ :=
  if s.data = [] then some 0
  else if s.data.all Char.isDigit then some (digitsVal s.data)
  else none

/-- The environment slice read by `config.ts` (`process.env.*`); `none` means
the variable is unset. -/
structure Env where
  CLAWRAG_API_URL : Option String
  CLAWRAG_TIMEOUT : Option String
  LOG_LEVEL : Option String
deriving DecidableEq, Repr

/-- The exported `config` value.  `CLAWRAG_TIMEOUT` is the result of the
`Number` transform, `none` standing for `NaN`. -/
structure Config where
  CLAWRAG_API_URL : String
  CLAWRAG_TIMEOUT : Option ℕ
  LOG_LEVEL : LogLevel
deriving DecidableEq, Repr

/-- Embedding of `configSchema.safeParse(env)` from `config.ts`: each field
defaults when unset, `CLAWRAG_API_URL` must pass the URL check,
`CLAWRAG_TIMEOUT` is validated only as a string and then transformed with
`Number`, and `LOG_LEVEL` must be one of the four enum values. -/
def configSchemaParse (env : Env) : Except Unit Config :=
  let url := env.CLAWRAG_API_URL.getD "http://localhost:8080"
  if isURL url then
    match parseLogLevel (env.LOG_LEVEL.getD "INFO") with
    | some lvl => .ok ⟨url, jsNumber (env.CLAWRAG_TIMEOUT.getD "120000"), lvl⟩
    | none => .error ()
  else .error ()

/-- Embedding of the module-level behavior of `config.ts`: on a failed parse the
error is logged and the process exits with code 1 (no config is exported),
otherwise the parsed config is exported. -/
def moduleInit (env : Env) : Except ℕ Config :=
  match configSchemaParse env with
  | .error _ => .error 1
  | .ok c => .ok c

/-! ## Theorems -/

theorem fuse_perm (coll : String) (K : ℚ) (v l : List String) :
    List.Perm (fuse coll K v l) ((candidates v l).map (mkFused coll K v l)) :=
  List.perm_insertionSort fusedLE _

theorem fuse_sorted (coll : String) (K : ℚ) (v l : List String) :
    List.Sorted fusedLE (fuse coll K v l) :=
  List.sorted_insertionSort fusedLE _

theorem fuse_score_eq (coll : String) (K : ℚ) (v l : List String) (r : FusedResult)
    (hr : r ∈ fuse coll K v l) :
    r.fused_score = rrfContrib K (rankOf v r.chunk_id) + rrfContrib K (rankOf l r.chunk_id) := by
  obtain ⟨d, _, rfl⟩ := List.mem_map.mp ((fuse_perm coll K v l).subset hr)
  rfl

theorem fuse_covers (coll : String) (K : ℚ) (v l : List String) (d : String) :
    (d ∈ v ∨ d ∈ l) ↔ ∃ r ∈ fuse coll K v l, r.chunk_id = d := by
  rw [← List.mem_append, ← List.mem_dedup]
  constructor
  · intro hd
    exact ⟨mkFused coll K v l d,
      (fuse_perm coll K v l).mem_iff.mpr (List.mem_map_of_mem _ hd), rfl⟩
  · rintro ⟨r, hr, rfl⟩
    obtain ⟨d', hd', rfl⟩ := List.mem_map.mp ((fuse_perm coll K v l).subset hr)
    exact hd'

/-- C1: the FusionEngine assigns every chunk appearing in at least one list the
RRF score `Σ_l 1/(K + rank_l(d))` (an absent list contributing 0), emits
exactly the candidate chunks sorted descending by fused score with ties broken
by vector rank (absence worst), then lexical rank, then chunk id; on the
spec's end-to-end scenario (vector `c1,c2,c3`; lexical `c2,c4,c1`; K = 60) the
output order is exactly `c2, c1, c4, c3`. -/
theorem fusionEngine_rrf :
    (∀ (coll : String) (K : ℚ) (v l : List String),
      List.Sorted fusedLE (fuse coll K v l) ∧
      (∀ r ∈ fuse coll K v l,
        r.fused_score = rrfContrib K (rankOf v r.chunk_id) + rrfContrib K (rankOf l r.chunk_id)) ∧
      (∀ d, (d ∈ v ∨ d ∈ l) ↔ ∃ r ∈ fuse coll K v l, r.chunk_id = d)) ∧
    (fuse "contracts" 60 ["c1", "c2", "c3"] ["c2", "c4", "c1"]).map FusedResult.chunk_id
      = ["c2", "c1", "c4", "c3"] := by
  refine ⟨fun coll K v l => ⟨fuse_sorted coll K v l, fuse_score_eq coll K v l,
    fuse_covers coll K v l⟩, ?_⟩
  norm_num +decide [fuse, candidates, mkFused, fusedScore, rankOf, rrfContrib,
    List.dedup, List.insertionSort, List.orderedInsert, fusedLE, fusedKey,
    Prod.Lex.le_iff, toWT, List.indexOf?]

theorem fusionEngine_rrf_witness :
    mkFused "contracts" 60 ["c1", "c2", "c3"] ["c2", "c4", "c1"] "c2"
        ∈ fuse "contracts" 60 ["c1", "c2", "c3"] ["c2", "c4", "c1"] ∧
    (mkFused "contracts" 60 ["c1", "c2", "c3"] ["c2", "c4", "c1"] "c2").fused_score
      = rrfContrib 60 (rankOf ["c1", "c2", "c3"] "c2")
        + rrfContrib 60 (rankOf ["c2", "c4", "c1"] "c2") := by
  have hmem : mkFused "contracts" 60 ["c1", "c2", "c3"] ["c2", "c4", "c1"] "c2"
      ∈ fuse "contracts" 60 ["c1", "c2", "c3"] ["c2", "c4", "c1"] := by
    norm_num +decide [fuse, candidates, mkFused, fusedScore, rankOf, rrfContrib,
      List.dedup, List.insertionSort, List.orderedInsert, fusedLE, fusedKey,
      Prod.Lex.le_iff, toWT, List.indexOf?]
  exact ⟨hmem, (fusionEngine_rrf.1 "contracts" 60 ["c1", "c2", "c3"] ["c2", "c4", "c1"]).2.1
    _ hmem⟩

/-- C2: once the consecutive-failure streak reaches `failure_threshold` the
breaker opens; while open and before the cooldown elapses every call is
rejected with `CircuitOpenError` without invoking the store and without
changing the state; any invoked success resets the streak to zero; once the
cooldown has elapsed the trial call is admitted and a successful trial closes
the breaker; callers arriving while a trial is in flight are rejected. -/
theorem circuitBreaker_contract (cfg : CBConfig) (s : CBState) (t : ℕ) :
    (s.status = .closed → cfg.failure_threshold ≤ s.consecutive_failures + 1 →
      (cbCall cfg s t .failure).state.status = .opened) ∧
    (s.status = .opened → t < s.opened_at + cfg.cooldown_duration →
      ∀ store, cbCall cfg s t store = ⟨.circuitOpenError, false, s⟩) ∧
    ((cbCall cfg s t .success).store_invoked = true →
      (cbCall cfg s t .success).state.consecutive_failures = 0) ∧
    (s.status = .opened → s.opened_at + cfg.cooldown_duration ≤ t →
      (cbCall cfg s t .success).store_invoked = true ∧
      (cbCall cfg s t .success).state.status = .closed) ∧
    (s.status = .halfOpen → ∀ store, cbCall cfg s t store = ⟨.circuitOpenError, false, s⟩) := by
  obtain ⟨st, f, oa⟩ := s
  refine ⟨?_, ?_, ?_, ?_, ?_⟩
  · intro hst hth
    cases st <;> simp_all [cbCall]
  · intro hst hlt store
    cases st <;> simp_all [cbCall]
  · cases st
    · simp [cbCall]
    · by_cases h : oa + cfg.cooldown_duration ≤ t <;> simp [cbCall, h]
    · simp [cbCall]
  · intro hst hle
    cases st <;> simp_all [cbCall]
  · intro hst store
    cases st <;> simp_all [cbCall]

theorem circuitBreaker_contract_witness :
    (CBState.mk .closed 4 0).status = .closed ∧
    CBConfig.failure_threshold ⟨5, 30000⟩ ≤ 4 + 1 ∧
    (cbCall ⟨5, 30000⟩ ⟨.closed, 4, 0⟩ 100 .failure).state.status = .opened := by
  refine ⟨rfl, by decide, ?_⟩
  exact (circuitBreaker_contract ⟨5, 30000⟩ ⟨.closed, 4, 0⟩ 100).1 rfl (by decide)

/-- C4: fusion is a pure function of its inputs (identical retriever outputs
yield identical orderings) and the cross-collection merge is invariant under
any permutation of the collected per-collection results, so the final output
does not depend on task completion order. -/
theorem fusion_merge_deterministic :
    (∀ (coll : String) (K K' : ℚ) (v l v' l' : List String),
      K = K' → v = v' → l = l' → fuse coll K v l = fuse coll K' v' l') ∧
    (∀ (k : ℕ) (rs rs' : List FusedResult), List.Perm rs rs' →
      globalMerge k rs = globalMerge k rs') := by
  constructor
  · rintro coll K K' v l v' l' rfl rfl rfl
    rfl
  · intro k rs rs' hp
    unfold globalMerge
    congr 1
    exact List.eq_of_perm_of_sorted
      ((List.perm_insertionSort fusedLE rs).trans
        (hp.trans (List.perm_insertionSort fusedLE rs').symm))
      (List.sorted_insertionSort fusedLE rs)
      (List.sorted_insertionSort fusedLE rs')

theorem fusion_merge_deterministic_witness :
    List.Perm
      [FusedResult.mk "c1" "a" 1 (some 1) none, FusedResult.mk "c2" "b" 2 (some 1) (some 1)]
      [FusedResult.mk "c2" "b" 2 (some 1) (some 1), FusedResult.mk "c1" "a" 1 (some 1) none] ∧
    globalMerge 2
      [FusedResult.mk "c1" "a" 1 (some 1) none, FusedResult.mk "c2" "b" 2 (some 1) (some 1)]
      = globalMerge 2
      [FusedResult.mk "c2" "b" 2 (some 1) (some 1), FusedResult.mk "c1" "a" 1 (some 1) none] :=
  ⟨List.Perm.swap _ _ _,
    fusion_merge_deterministic.2 2 _ _ (List.Perm.swap _ _ _)⟩

theorem failedCollections_eq_nil (outs : List CollectionOutcome) :
    failedCollections outs = [] ↔ ∀ o ∈ outs, ∃ r, o.outcome = .ok r := by
  rw [failedCollections, List.filterMap_eq_nil_iff]
  refine forall_congr' fun o => imp_congr_right fun _ => ?_
  cases h : o.outcome <;> simp [h]

theorem successResults_eq_nil (outs : List CollectionOutcome) :
    successResults outs = [] ↔ ∀ o ∈ outs, ∃ e, o.outcome = .error e := by
  rw [successResults, List.filterMap_eq_nil_iff]
  refine forall_congr' fun o => imp_congr_right fun _ => ?_
  cases h : o.outcome <;> simp [h, Except.toOption]

theorem outcome_not_ok (o : CollectionOutcome) :
    ¬ (∃ r, o.outcome = .ok r) ↔ ∃ e, o.outcome = .error e := by
  cases h : o.outcome <;> simp [h]

theorem mem_failedCollections (outs : List CollectionOutcome) (o : CollectionOutcome)
    (ho : o ∈ outs) (e : RetrievalError) (he : o.outcome = .error e) :
    (o.name, e) ∈ failedCollections outs := by
  rw [failedCollections, List.mem_filterMap]
  exact ⟨o, ho, by simp [he]⟩

/-- C3: the orchestrator's terminal state is `completed` exactly when every
targeted collection succeeded, `failed` exactly when every targeted collection
failed, and `partialFailure` exactly when at least one succeeded and at least
one failed; the manifest lists each failed collection with its error kind; and
querying 3 collections where exactly one fails (circuit open) and two succeed
yields `partialFailure` with non-empty results and exactly one manifest
entry. -/
theorem orchestrator_terminal :
    (∀ outs : List CollectionOutcome, outs ≠ [] →
      (terminalState outs = .completed ↔ ∀ o ∈ outs, ∃ r, o.outcome = .ok r) ∧
      (terminalState outs = .failed ↔ ∀ o ∈ outs, ∃ e, o.outcome = .error e) ∧
      (terminalState outs = .partialFailure ↔
        ((∃ o ∈ outs, ∃ r, o.outcome = .ok r) ∧ (∃ o ∈ outs, ∃ e, o.outcome = .error e))) ∧
      (∀ o ∈ outs, ∀ e, o.outcome = .error e → (o.name, e) ∈ failedCollections outs)) ∧
    ((orchestrate 5
        [⟨"a", .ok [⟨"x", "a", 1, some 1, some 1⟩]⟩,
         ⟨"b", .error .circuitOpenErr⟩,
         ⟨"c", .ok [⟨"y", "c", 2, some 1, some 1⟩]⟩]).1 = .partialFailure ∧
      (orchestrate 5
        [⟨"a", .ok [⟨"x", "a", 1, some 1, some 1⟩]⟩,
         ⟨"b", .error .circuitOpenErr⟩,
         ⟨"c", .ok [⟨"y", "c", 2, some 1, some 1⟩]⟩]).2.1 ≠ [] ∧
      (orchestrate 5
        [⟨"a", .ok [⟨"x", "a", 1, some 1, some 1⟩]⟩,
         ⟨"b", .error .circuitOpenErr⟩,
         ⟨"c", .ok [⟨"y", "c", 2, some 1, some 1⟩]⟩]).2.2
        = [("b", .circuitOpenErr)]) := by
  constructor
  · intro outs hne
    obtain ⟨o₀, ho₀⟩ := List.exists_mem_of_ne_nil outs hne
    refine ⟨?_, ?_, ?_, fun o ho e he => mem_failedCollections outs o ho e he⟩
    · unfold terminalState
      split_ifs with hf hs
      · simpa using (failedCollections_eq_nil outs).mp hf
      · simp only [show TerminalState.failed ≠ TerminalState.completed from by decide,
          false_iff]
        intro hall
        obtain ⟨e, he⟩ := (successResults_eq_nil outs).mp hs o₀ ho₀
        obtain ⟨r, hr⟩ := hall o₀ ho₀
        rw [hr] at he
        exact Except.noConfusion he
      · simp only [show TerminalState.partialFailure ≠ TerminalState.completed from by decide,
          false_iff]
        intro hall
        exact hf ((failedCollections_eq_nil outs).mpr hall)
    · unfold terminalState
      split_ifs with hf hs
      · simp only [show TerminalState.completed ≠ TerminalState.failed from by decide,
          false_iff]
        intro hall
        obtain ⟨e, he⟩ := hall o₀ ho₀
        obtain ⟨r, hr⟩ := (failedCollections_eq_nil outs).mp hf o₀ ho₀
        rw [hr] at he
        exact Except.noConfusion he
      · simpa using (successResults_eq_nil outs).mp hs
      · simp only [show TerminalState.partialFailure ≠ TerminalState.failed from by decide,
          false_iff]
        intro hall
        exact hs ((successResults_eq_nil outs).mpr hall)
    · unfold terminalState
      split_ifs with hf hs
      · simp only [show TerminalState.completed ≠ TerminalState.partialFailure from by decide,
          false_iff]
        rintro ⟨-, o, ho, e, he⟩
        obtain ⟨r, hr⟩ := (failedCollections_eq_nil outs).mp hf o ho
        rw [hr] at he
        exact Except.noConfusion he
      · simp only [show TerminalState.failed ≠ TerminalState.partialFailure from by decide,
          false_iff]
        rintro ⟨⟨o, ho, r, hr⟩, -⟩
        obtain ⟨e, he⟩ := (successResults_eq_nil outs).mp hs o ho
        rw [hr] at he
        exact Except.noConfusion he
      · simp only [true_iff]
        constructor
        · by_contra hno
          push_neg at hno
          refine hs ((successResults_eq_nil outs).mpr fun o ho => ?_)
          cases h : o.outcome with
          | ok r => exact absurd h (hno o ho r)
          | error e => exact ⟨e, rfl⟩
        · by_contra hno
          push_neg at hno
          refine hf ((failedCollections_eq_nil outs).mpr fun o ho => ?_)
          cases h : o.outcome with
          | ok r => exact ⟨r, rfl⟩
          | error e => exact absurd h (hno o ho e)
  · exact ⟨by decide, by decide, by decide⟩

theorem orchestrator_terminal_witness :
    ([⟨"b", .error .circuitOpenErr⟩] : List CollectionOutcome) ≠ [] ∧
    (terminalState [⟨"b", .error .circuitOpenErr⟩] = .failed ↔
      ∀ o ∈ ([⟨"b", .error .circuitOpenErr⟩] : List CollectionOutcome),
        ∃ e, o.outcome = .error e) :=
  ⟨List.cons_ne_nil _ _,
    (orchestrator_terminal.1 _ (List.cons_ne_nil _ _)).2.1⟩

/-- C5: with `base_delay = 200 ms`, `max_delay = 5 s`, `max_attempts = 3`, the
capped backoff before attempt `n` is `min(base_delay * 2^(n-2), max_delay)` and
full jitter draws the scheduled delay from `[0, cap]`, so every jitter outcome
puts the second attempt's scheduled delay in `[0, 200 ms]` and the third in
`[0, 400 ms]`; after all 3 attempts fail, the surfaced error is
`RetryExhaustedError` wrapping the last underlying error. -/
theorem retryPolicy_delays_and_exhaustion :
    retryDelay ⟨200, 5000, 3⟩ 2 = 200 ∧
    retryDelay ⟨200, 5000, 3⟩ 3 = 400 ∧
    (∀ j : ℚ, 0 ≤ j → j ≤ 1 →
      0 ≤ scheduledDelay ⟨200, 5000, 3⟩ 2 j ∧ scheduledDelay ⟨200, 5000, 3⟩ 2 j ≤ 200) ∧
    (∀ j : ℚ, 0 ≤ j → j ≤ 1 →
      0 ≤ scheduledDelay ⟨200, 5000, 3⟩ 3 j ∧ scheduledDelay ⟨200, 5000, 3⟩ 3 j ≤ 400) ∧
    (∀ (ε α : Type) (attempt : ℕ → Except ε α) (e₁ e₂ e₃ : ε),
      attempt 1 = .error e₁ → attempt 2 = .error e₂ → attempt 3 = .error e₃ →
      retryPolicy ⟨200, 5000, 3⟩ attempt = .exhausted e₃) := by
  have h2 : retryDelay ⟨200, 5000, 3⟩ 2 = 200 := by norm_num [retryDelay]
  have h3 : retryDelay ⟨200, 5000, 3⟩ 3 = 400 := by norm_num [retryDelay]
  refine ⟨h2, h3, ?_, ?_, ?_⟩
  · intro j hj0 hj1
    rw [scheduledDelay, h2]
    constructor <;> nlinarith
  · intro j hj0 hj1
    rw [scheduledDelay, h3]
    constructor <;> nlinarith
  · intro ε α attempt e₁ e₂ e₃ ha1 ha2 ha3
    simp [retryPolicy, List.range_succ, ha1, ha2, ha3, runRetry]

theorem retryPolicy_delays_and_exhaustion_witness :
    (0 ≤ (1 / 2 : ℚ) ∧ (1 / 2 : ℚ) ≤ 1 ∧
      0 ≤ scheduledDelay ⟨200, 5000, 3⟩ 2 (1 / 2) ∧
      scheduledDelay ⟨200, 5000, 3⟩ 2 (1 / 2) ≤ 200) ∧
    ((fun n : ℕ => (Except.error n : Except ℕ Unit)) 1 = .error 1 ∧
      retryPolicy ⟨200, 5000, 3⟩ (fun n : ℕ => (Except.error n : Except ℕ Unit))
        = .exhausted 3) := by
  refine ⟨⟨by norm_num, by norm_num, ?_⟩, rfl, ?_⟩
  · exact retryPolicy_delays_and_exhaustion.2.2.1 (1 / 2) (by norm_num) (by norm_num)
  · exact retryPolicy_delays_and_exhaustion.2.2.2.2 ℕ Unit
      (fun n => Except.error n) 1 2 3 rfl rfl rfl

/-- C6: for every damping constant `K > 0`, a chunk appearing in both ranked
lists at rank 1 gets a strictly higher fused score than a chunk appearing in
only one list at rank 1 (`2/(K+1) > 1/(K+1)`). -/
theorem rrf_both_lists_beat_single (K : ℚ) (hK : 0 < K)
    (v l v' l' : List String) (d d' : String)
    (hv : rankOf v d = some 1) (hl : rankOf l d = some 1)
    (hv' : rankOf v' d' = some 1) (hl' : rankOf l' d' = none) :
    fusedScore K v' l' d' < fusedScore K v l d := by
  have hpos : 0 < K + (1 : ℕ) := by push_cast; linarith
  have hcontrib : 0 < 1 / (K + (1 : ℕ)) := by positivity
  simp only [fusedScore, hv, hl, hv', hl', rrfContrib]
  linarith

theorem rrf_both_lists_beat_single_witness :
    (0 : ℚ) < 60 ∧
    rankOf ["d"] "d" = some 1 ∧
    rankOf ["e"] "e" = some 1 ∧
    rankOf ([] : List String) "e" = none ∧
    fusedScore 60 ["e"] [] "e" < fusedScore 60 ["d"] ["d"] "d" := by
  refine ⟨by norm_num, by decide, by decide, by decide, ?_⟩
  exact rrf_both_lists_beat_single 60 (by norm_num) ["d"] ["d"] ["e"] [] "d" "e"
    (by decide) (by decide) (by decide) (by decide)

/-- C7: a query embedding whose dimension differs from the collection's
declared `embedding_dimension` always fails with `ValidationError`; the
retriever never proceeds (no silently truncated or padded search). -/
theorem vectorRetriever_dimension_mismatch (c : Collection) (query : List ℚ)
    (k : ℕ) (store : List RankedEntry)
    (h : query.length ≠ c.embedding_dimension) :
    vectorSearch c query k store = .error .validationError ∧
    ∀ res, vectorSearch c query k store ≠ .ok res := by
  refine ⟨by simp [vectorSearch, h], fun res hres => ?_⟩
  rw [vectorSearch, if_pos h] at hres
  exact Except.noConfusion hres

theorem vectorRetriever_dimension_mismatch_witness :
    ([(1 : ℚ), 2].length ≠ (Collection.mk "contracts" 3 0).embedding_dimension) ∧
    vectorSearch ⟨"contracts", 3, 0⟩ [(1 : ℚ), 2] 5 [] = .error .validationError :=
  ⟨by decide,
    (vectorRetriever_dimension_mismatch ⟨"contracts", 3, 0⟩ [(1 : ℚ), 2] 5 [] (by decide)).1⟩

/-- C8: with `CLAWRAG_API_URL`, `CLAWRAG_TIMEOUT` and `LOG_LEVEL` all unset,
parsing succeeds and the exported config is the default URL
`http://localhost:8080`, the timeout `120000` as a number (transformed from the
default string `'120000'`), and log level `INFO`. -/
theorem config_defaults :
    moduleInit ⟨none, none, none⟩
      = .ok ⟨"http://localhost:8080", some 120000, .INFO⟩ := by
  decide

/-- C9: an environment whose `CLAWRAG_API_URL` is not a valid URL, or whose
`LOG_LEVEL` is outside the enum, fails schema parsing; the process exits with
code 1 and no config value is ever exported. -/
theorem config_invalid_env_exits (env : Env)
    (h : (∃ s, env.CLAWRAG_API_URL = some s ∧ isURL s = false) ∨
         (∃ s, env.LOG_LEVEL = some s ∧ parseLogLevel s = none)) :
    moduleInit env = .error 1 ∧ ∀ c, moduleInit env ≠ .ok c := by
  obtain ⟨u, tmo, lv⟩ := env
  have herr : configSchemaParse ⟨u, tmo, lv⟩ = .error () := by
    rcases h with ⟨s, hs, hbad⟩ | ⟨s, hs, hbad⟩
    · simp only at hs
      subst hs
      simp [configSchemaParse, hbad]
    · simp only at hs
      subst hs
      simp only [configSchemaParse]
      by_cases hu : isURL (u.getD "http://localhost:8080")
      · simp [hu, hbad]
      · simp [hu]
  refine ⟨by simp [moduleInit, herr], fun c hc => ?_⟩
  simp [moduleInit, herr] at hc

theorem config_invalid_env_exits_witness :
    ((∃ s, (Env.mk (some "not a url") none none).CLAWRAG_API_URL = some s ∧ isURL s = false) ∨
      (∃ s, (Env.mk (some "not a url") none none).LOG_LEVEL = some s ∧ parseLogLevel s = none)) ∧
    moduleInit ⟨some "not a url", none, none⟩ = .error 1 := by
  have h : (∃ s, (Env.mk (some "not a url") none none).CLAWRAG_API_URL = some s ∧ isURL s = false) ∨
      (∃ s, (Env.mk (some "not a url") none none).LOG_LEVEL = some s ∧ parseLogLevel s = none) :=
    Or.inl ⟨"not a url", rfl, by decide⟩
  exact ⟨h, (config_invalid_env_exits ⟨some "not a url", none, none⟩ h).1⟩

/-- C10: every string value of `CLAWRAG_TIMEOUT` passes validation (the schema
checks it only as a string before the `Number` transform), so whether parsing
succeeds never depends on it; in particular `'abc'` causes no configuration
error or process exit but yields a `CLAWRAG_TIMEOUT` of NaN in the exported
config. -/
theorem config_timeout_string_never_fails :
    (∀ (u lv : Option String) (t : String),
      (moduleInit ⟨u, some t, lv⟩).isOk = (moduleInit ⟨u, none, lv⟩).isOk) ∧
    moduleInit ⟨none, some "abc", none⟩
      = .ok ⟨"http://localhost:8080", none, .INFO⟩ := by
  refine ⟨?_, by decide⟩
  intro u lv t
  simp only [moduleInit, configSchemaParse]
  by_cases hu : isURL (u.getD "http://localhost:8080")
  · simp only [hu, if_true]
    cases hl : parseLogLevel (lv.getD "INFO") <;> simp [hl, Except.isOk, Except.toBool]
  · simp [hu]

end ClawRag
